import Mathlib

/-!
Verification of the credential-resolution and completion-gateway core of the
copilot-proxy repository, against its natural-language specification.

Go strings are modelled as `List Char` (the tokens involved are ASCII, so byte
indices and char indices coincide).  Wall-clock time is modelled as integer
unix seconds.  Helper functions (`goStartsWith`, `splitOnChar`, `subIndex`,
`parseInt64`, ...) are shallow embeddings of the Go standard-library functions
(`strings.HasPrefix`, `strings.Split`, `strings.Index`, `strconv.ParseInt`)
exactly as the repository uses them.
-/

abbrev Str := List Char

/-- Embedding of Go `strings.HasPrefix s pre`. -/
def goStartsWith : Str → Str → Bool
  | _, [] => true
  | [], _ :: _ => false
  | c :: s, p :: ps => c == p && goStartsWith s ps

/-- Embedding of Go `strings.Split s sep` for a one-character separator. -/
def splitOnChar (sep : Char) : Str → List Str
  | [] => [[]]
  | c :: t =>
    match splitOnChar sep t with
    | [] => [[c]]
    | h :: r => if c = sep then [] :: h :: r else (c :: h) :: r

/-- Embedding of Go `strings.Index s pat`: index of the first occurrence of
`pat` in `s`, `none` when absent (Go returns -1). -/
def subIndex (pat : Str) : Str → Option Nat
  | [] => if goStartsWith [] pat then some 0 else none
  | c :: t =>
    if goStartsWith (c :: t) pat then some 0
    else (subIndex pat t).map (· + 1)

/-- Embedding of Go `strings.Contains s sub`. -/
def goContains (s sub : Str) : Bool := (subIndex sub s).isSome

/-- Value of an ASCII decimal digit. -/
def digitVal (c : Char) : Option Nat :=
  if 48 ≤ c.toNat ∧ c.toNat ≤ 57 then some (c.toNat - 48) else none

/-- Accumulating decimal parser over the digit characters. -/
def parseDigitsAux : Nat → Str → Option Nat
  | acc, [] => some acc
  | acc, c :: t =>
    match digitVal c with
    | some d => parseDigitsAux (acc * 10 + d) t
    | none => none

/-- Largest int64 value, as used by Go `strconv.ParseInt(s, 10, 64)`. -/
def maxInt64 : Nat := 9223372036854775807

/-- Embedding of Go `strconv.ParseInt(s, 10, 64)`: optional sign, at least one
decimal digit, result within the int64 range; `none` models a non-nil error. -/
def parseInt64 (s : Str) : Option Int :=
  match s with
  | [] => none
  | '+' :: [] => none
  | '-' :: [] => none
  | '+' :: t =>
    (parseDigitsAux 0 t).bind fun n =>
      if n ≤ maxInt64 then some (n : Int) else none
  | '-' :: t =>
    (parseDigitsAux 0 t).bind fun n =>
      if n ≤ maxInt64 + 1 then some (-(n : Int)) else none
  | t =>
    (parseDigitsAux 0 t).bind fun n =>
      if n ≤ maxInt64 then some (n : Int) else none

/-- Embedding of `auth.VerifyCopilotAPIKey` (src/internal/auth/auth.go):
requires the `tid=` head, takes the second `;`-separated field, requires the
`exp=` head on it, parses the timestamp and accepts exactly when
`time.Unix(exp, 0).After(now)` — at second granularity, `now < exp`. -/
def verifyCopilotAPIKey (apiKey : Str) (now : Int) : Bool :=
  if goStartsWith apiKey ("tid=".toList) then
    match splitOnChar ';' apiKey with
    | _ :: expPart :: _ =>
      if goStartsWith expPart ("exp=".toList) then
        match parseInt64 (expPart.drop 4) with
        | some e => decide (now < e)
        | none => false
      else false
    | _ => false
  else false

/-- Embedding of `utils.ValidateCopilotToken` (src/pkg/utils/copilot_config.go):
requires the `tid=` head, locates the first `";exp="`, requires a terminating
`";"`, parses the timestamp in between and rejects only when
`time.Now().Unix() > exp`. -/
def validateCopilotToken (token : Str) (now : Int) : Bool :=
  if goStartsWith token ("tid=".toList) then
    match subIndex (";exp=".toList) token with
    | none => false
    | some expIndex =>
      match subIndex (";".toList) (token.drop (expIndex + 5)) with
      | none => false
      | some expEnd =>
        match parseInt64 ((token.drop (expIndex + 5)).take expEnd) with
        | none => false
        | some e => if now > e then false else true
  else false

/-- A credential string `tid=<tidv>;exp=<expStr>;<rest>` in the shape named by
the specification. -/
def mkVendorCredential (tidv expStr rest : Str) : Str :=
  "tid=".toList ++ tidv ++ ";exp=".toList ++ expStr ++ ";".toList ++ rest

theorem goStartsWith_nil (s : Str) : goStartsWith s [] = true := by
  cases s <;> rfl

theorem goStartsWith_append (p t : Str) : goStartsWith (p ++ t) p = true := by
  induction p with
  | nil => exact goStartsWith_nil t
  | cons c p ih => simp [goStartsWith, ih]

theorem splitOnChar_ne_nil (sep : Char) (s : Str) : splitOnChar sep s ≠ [] := by
  cases s with
  | nil => simp [splitOnChar]
  | cons c t =>
    cases h : splitOnChar sep t with
    | nil => simp [splitOnChar, h]
    | cons a r => simp only [splitOnChar, h]; split <;> simp

theorem splitOnChar_append (sep : Char) (xs ys : Str) (h : sep ∉ xs) :
    splitOnChar sep (xs ++ sep :: ys) = xs :: splitOnChar sep ys := by
  induction xs with
  | nil =>
    show splitOnChar sep (sep :: ys) = [] :: splitOnChar sep ys
    cases hy : splitOnChar sep ys with
    | nil => exact absurd hy (splitOnChar_ne_nil sep ys)
    | cons a r => simp [splitOnChar, hy]
  | cons c xs ih =>
    have hc : ¬(c = sep) := fun e => h (e ▸ List.mem_cons_self c xs)
    have h' : sep ∉ xs := fun hm => h (List.mem_cons_of_mem _ hm)
    simp only [List.cons_append, splitOnChar, List.append_eq, ih h', if_neg hc]

theorem subIndex_append_first (sep : Char) (pat' xs ys : Str) (hx : sep ∉ xs)
    (hy : goStartsWith ys (sep :: pat') = true) :
    subIndex (sep :: pat') (xs ++ ys) = some xs.length := by
  induction xs with
  | nil =>
    cases ys with
    | nil => simp [goStartsWith] at hy
    | cons a t => simp [subIndex, hy]
  | cons c xs ih =>
    have hcs : c ≠ sep := fun e => hx (e ▸ List.mem_cons_self c xs)
    have hc : (c == sep) = false := beq_eq_false_iff_ne.mpr hcs
    have h' : sep ∉ xs := fun hm => hx (List.mem_cons_of_mem _ hm)
    have hfalse : goStartsWith (c :: (xs ++ ys)) (sep :: pat') = false := by
      simp only [goStartsWith, hc, Bool.false_and]
    simp [subIndex, hfalse, ih h', List.length_cons]

/-- C2 (counterexample): the claim says the credential-validity check returns
true exactly when `exp` is strictly greater than the current unix time, the
boundary `exp == now` being invalid.  `utils.ValidateCopilotToken` accepts the
boundary: at `now = 100` a credential with `exp=100` validates as true. -/
theorem C2_boundary_counterexample :
    validateCopilotToken ("tid=x;exp=100;sku=free".toList) 100 = true := by decide

/-- C2 (amended): for a credential `tid=...;exp=<e>;...` with well-formed `e`,
`auth.VerifyCopilotAPIKey` is true exactly when `e` is strictly in the future
(`now < e`, boundary invalid), while `utils.ValidateCopilotToken` also accepts
the boundary (true exactly when `now ≤ e`); both return false when the `exp`
value is malformed. -/
theorem C2_expiry_amended (tidv expStr rest : Str) (now : Int)
    (h1 : ';' ∉ tidv) (h2 : ';' ∉ expStr) :
    (∀ e : Int, parseInt64 expStr = some e →
      verifyCopilotAPIKey (mkVendorCredential tidv expStr rest) now = decide (now < e) ∧
      validateCopilotToken (mkVendorCredential tidv expStr rest) now = decide (now ≤ e)) ∧
    (parseInt64 expStr = none →
      verifyCopilotAPIKey (mkVendorCredential tidv expStr rest) now = false ∧
      validateCopilotToken (mkVendorCredential tidv expStr rest) now = false) := by
  have hA : ';' ∉ "tid=".toList ++ tidv := by
    intro hm
    rcases List.mem_append.mp hm with h | h
    · simp at h
    · exact h1 h
  have hE : ';' ∉ "exp=".toList ++ expStr := by
    intro hm
    rcases List.mem_append.mp hm with h | h
    · simp at h
    · exact h2 h
  have htok : mkVendorCredential tidv expStr rest =
      ("tid=".toList ++ tidv) ++ ';' :: (("exp=".toList ++ expStr) ++ ';' :: rest) := by
    simp [mkVendorCredential]
  have hstarts : goStartsWith (mkVendorCredential tidv expStr rest) ("tid=".toList) = true := by
    have h := goStartsWith_append ("tid=".toList)
      (tidv ++ ";exp=".toList ++ expStr ++ ";".toList ++ rest)
    simpa [mkVendorCredential] using h
  have hsplit : splitOnChar ';' (mkVendorCredential tidv expStr rest) =
      ("tid=".toList ++ tidv) :: ("exp=".toList ++ expStr) :: splitOnChar ';' rest := by
    rw [htok, splitOnChar_append ';' _ _ hA, splitOnChar_append ';' _ _ hE]
  have hexp : goStartsWith ("exp=".toList ++ expStr) ("exp=".toList) = true :=
    goStartsWith_append _ _
  have hdrop4 : ("exp=".toList ++ expStr).drop 4 = expStr := by
    have h := List.drop_left ("exp=".toList) expStr
    simp only [List.length_append, String.length] at h
    exact h
  have hidx : subIndex (";exp=".toList) (mkVendorCredential tidv expStr rest) =
      some ("tid=".toList ++ tidv).length := by
    rw [htok]
    refine subIndex_append_first ';' ("exp=".toList) _ _ hA ?_
    exact goStartsWith_append (';' :: "exp=".toList) (expStr ++ ';' :: rest)
  have hdropTok : (mkVendorCredential tidv expStr rest).drop
      (("tid=".toList ++ tidv).length + 5) = expStr ++ ';' :: rest := by
    have hre : mkVendorCredential tidv expStr rest =
        (("tid=".toList ++ tidv) ++ ';' :: "exp=".toList) ++ (expStr ++ ';' :: rest) := by
      simp [mkVendorCredential]
    have hlen : (("tid=".toList ++ tidv) ++ ';' :: "exp=".toList).length =
        ("tid=".toList ++ tidv).length + 5 := by
      simp [List.length_append]
    rw [hre, ← hlen, List.drop_left]
  have hidx2 : subIndex (";".toList) (expStr ++ ';' :: rest) = some expStr.length := by
    refine subIndex_append_first ';' [] _ _ h2 ?_
    simp [goStartsWith, goStartsWith_nil]
  have htake : (expStr ++ ';' :: rest).take expStr.length = expStr :=
    List.take_left _ _
  constructor
  · intro e he
    constructor
    · rw [verifyCopilotAPIKey, if_pos hstarts, hsplit]
      simp only [hexp, if_true, hdrop4, he]
    · rw [validateCopilotToken, if_pos hstarts, hidx]
      simp only [hdropTok, hidx2, htake, he]
      by_cases hgt : now > e
      · simp only [if_pos hgt]
        have h : ¬ now ≤ e := by omega
        simp [h]
      · simp only [if_neg hgt]
        have h : now ≤ e := by omega
        simp [h]
  · intro he
    constructor
    · rw [verifyCopilotAPIKey, if_pos hstarts, hsplit]
      simp only [hexp, if_true, hdrop4, he]
    · rw [validateCopilotToken, if_pos hstarts, hidx]
      simp only [hdropTok, hidx2, htake, he]

/-- C2 (witness): concrete instance of the amended expiry theorem, one second
before expiry of `tid=x;exp=100;sku=free`. -/
theorem C2_expiry_amended_witness :
    verifyCopilotAPIKey (mkVendorCredential "x".toList "100".toList "sku=free".toList) 99 = true ∧
    validateCopilotToken (mkVendorCredential "x".toList "100".toList "sku=free".toList) 99 = true := by
  have h := (C2_expiry_amended "x".toList "100".toList "sku=free".toList 99
    (by decide) (by decide)).1 100 (by decide)
  exact ⟨by rw [h.1]; decide, by rw [h.2]; decide⟩

/-- Token entry of the GitHub Copilot `apps.json` config file
(`utils.TokenInfo`, src/pkg/utils/copilot_config.go). -/
structure TokenInfo where
  token : Str
  expiresAt : Int
  expiresIn : Int
  providerID : Str

/-- Error message of `utils.GetCopilotToken` when no entry has a token. -/
def noTokenInConfigMsg : Str := "no valid GitHub Copilot token found in config".toList

/-- Error message of `utils.GetCopilotOAuthToken`. -/
def noOAuthTokenMsg : Str := "no OAuth token found in environment variables".toList

/-- The distinct error of `app.GetCopilotAPIKey` when every source fails. -/
def noCredentialMsg : Str :=
  ("failed to retrieve Copilot API key: no valid source found. " ++
   "Set COPILOT_API_KEY or COPILOT_OAUTH_TOKEN environment variables").toList

/-- Embedding of `utils.GetCopilotToken` (src/pkg/utils/copilot_config.go):
given the parsed token map of the per-OS config file (or the read/parse
error), return the first non-empty token. -/
def getCopilotToken (cfg : Except Str (List TokenInfo)) : Except Str Str :=
  match cfg with
  | .error e => .error e
  | .ok infos =>
    match infos.find? (fun ti => !ti.token.isEmpty) with
    | some ti => .ok ti.token
    | none => .error noTokenInConfigMsg

/-- The cutset `"'\""` of Go `strings.Trim` as used on OAuth tokens. -/
def quoteCutset : List Char := ['\'', '"']

/-- Embedding of Go `strings.Trim s cutset`: strip leading and trailing
characters of the cutset. -/
def goTrim (cutset : List Char) (s : Str) : Str :=
  ((s.dropWhile (cutset.contains ·)).reverse.dropWhile (cutset.contains ·)).reverse

/-- The environment variables consulted by the credential-resolution code. -/
structure CopilotEnv where
  copilotAPIKey : Str
  copilotOauthToken : Str
  oauthToken : Str

/-- Embedding of `utils.GetCopilotOAuthToken`: `COPILOT_OAUTH_TOKEN` first,
then `OAUTH_TOKEN`, each trimmed of surrounding quotes. -/
def getCopilotOAuthToken (env : CopilotEnv) : Except Str Str :=
  if !env.copilotOauthToken.isEmpty then .ok (goTrim quoteCutset env.copilotOauthToken)
  else if !env.oauthToken.isEmpty then .ok (goTrim quoteCutset env.oauthToken)
  else .error noOAuthTokenMsg

/-- The state `app.GetCopilotAPIKey` runs in: environment variables, the
clock, the vendor token-exchange endpoint (`App.GetAPIKey`, a network call
returning the new credential string or an error), and the result of reading
the local Copilot config file. -/
structure CredWorld where
  env : CopilotEnv
  now : Int
  exchange : Str → Except Str Str
  configTokens : Except Str (List TokenInfo)

/-- Embedding of `App.GetCopilotAPIKey` (src/unnamed/part_009): (1) the
configured `COPILOT_API_KEY`, accepted only if `auth.VerifyCopilotAPIKey`
holds; (2) exchange of an OAuth token, caching the fresh credential in
`COPILOT_API_KEY` (`os.Setenv`); (3) the first non-empty token of the local
config file; otherwise the distinct no-credential error.  Returns the result
together with the updated state. -/
def getCopilotAPIKey (w : CredWorld) : Except Str Str × CredWorld :=
  if !w.env.copilotAPIKey.isEmpty && verifyCopilotAPIKey w.env.copilotAPIKey w.now then
    (.ok w.env.copilotAPIKey, w)
  else
    let step3 : Except Str Str × CredWorld :=
      match getCopilotToken w.configTokens with
      | .ok key => (.ok key, w)
      | .error _ => (.error noCredentialMsg, w)
    match getCopilotOAuthToken w.env with
    | .ok tok =>
      if !tok.isEmpty then
        match w.exchange tok with
        | .ok key => (.ok key, { w with env := { w.env with copilotAPIKey := key } })
        | .error _ => step3
      else step3
    | .error _ => step3

/-- Step 2 yields nothing: no OAuth token, or the exchange call failed. -/
def oauthPathFails (w : CredWorld) : Prop :=
  match getCopilotOAuthToken w.env with
  | .ok t => t = [] ∨ ∃ e, w.exchange t = .error e
  | .error _ => True

theorem verifyCopilotAPIKey_ne_nil (k : Str) (n : Int)
    (h : verifyCopilotAPIKey k n = true) : k ≠ [] := by
  intro he
  subst he
  simp [verifyCopilotAPIKey, goStartsWith] at h

/-- C1: credential resolution follows the three-step priority order. -/
theorem C1_resolution_priority (w : CredWorld) :
    ((!w.env.copilotAPIKey.isEmpty && verifyCopilotAPIKey w.env.copilotAPIKey w.now) = true →
      getCopilotAPIKey w = (.ok w.env.copilotAPIKey, w)) ∧
    ((!w.env.copilotAPIKey.isEmpty && verifyCopilotAPIKey w.env.copilotAPIKey w.now) = false →
      (∀ tok key, getCopilotOAuthToken w.env = .ok tok → tok ≠ [] →
        w.exchange tok = .ok key →
        getCopilotAPIKey w = (.ok key, { w with env := { w.env with copilotAPIKey := key } }) ∧
        (∀ (now' : Int) (ex' : Str → Except Str Str) (cf' : Except Str (List TokenInfo)),
          verifyCopilotAPIKey key now' = true →
          getCopilotAPIKey { env := { w.env with copilotAPIKey := key }, now := now',
                             exchange := ex', configTokens := cf' } =
            (.ok key, { env := { w.env with copilotAPIKey := key }, now := now',
                        exchange := ex', configTokens := cf' }))) ∧
      (oauthPathFails w →
        (∀ key, getCopilotToken w.configTokens = .ok key →
          getCopilotAPIKey w = (.ok key, w)) ∧
        (∀ e, getCopilotToken w.configTokens = .error e →
          getCopilotAPIKey w = (.error noCredentialMsg, w)))) ∧
    (∀ (pre post : List TokenInfo) (ti : TokenInfo),
      w.configTokens = .ok (pre ++ ti :: post) → (∀ t ∈ pre, t.token = []) →
      ti.token ≠ [] → getCopilotToken w.configTokens = .ok ti.token) := by
  refine ⟨?_, ?_, ?_⟩
  · intro hcond
    simp [getCopilotAPIKey, hcond]
  · intro hcond
    constructor
    · intro tok key hoauth htok hex
      constructor
      · simp [getCopilotAPIKey, hcond, hoauth, htok, hex]
      · intro now' ex' cf' hver
        have hne : key ≠ [] := verifyCopilotAPIKey_ne_nil key now' hver
        have hcond' : (!(key : Str).isEmpty && verifyCopilotAPIKey key now') = true := by
          simp [hver, List.isEmpty_iff, hne]
        simp [getCopilotAPIKey, hcond']
    · intro hfail
      have hstep : ∀ r, getCopilotToken w.configTokens = r →
          getCopilotAPIKey w =
            (match r with
              | .ok key => (.ok key, w)
              | .error _ => (.error noCredentialMsg, w)) := by
        intro r hr
        unfold oauthPathFails at hfail
        cases hoauth : getCopilotOAuthToken w.env with
        | ok t =>
          rw [hoauth] at hfail
          rcases hfail with ht | ⟨e, he⟩
          · subst ht
            simp [getCopilotAPIKey, hcond, hoauth, hr]
          · simp [getCopilotAPIKey, hcond, hoauth, he, hr]
        | error e =>
          simp [getCopilotAPIKey, hcond, hoauth, hr]
      constructor
      · intro key hk
        simpa using hstep (.ok key) hk
      · intro e he
        simpa using hstep (.error e) he
  · intro pre post ti hcfg hpre hti
    have hfind : (pre ++ ti :: post).find? (fun x => !x.token.isEmpty) = some ti := by
      rw [List.find?_append]
      have h1 : pre.find? (fun x => !x.token.isEmpty) = none := by
        rw [List.find?_eq_none]
        intro x hx
        simp [hpre x hx]
      rw [h1]
      simp [List.find?_cons, List.isEmpty_iff, hti]
    rw [hcfg]
    simp [getCopilotToken, hfind]

/-- A resolution state with no configured credential, one quoted OAuth token
in the environment, and an exchange endpoint answering with a fresh
credential. -/
def c1ExchangeWorld : CredWorld where
  env := { copilotAPIKey := [], copilotOauthToken := "'ghu_token'".toList, oauthToken := [] }
  now := 50
  exchange := fun t =>
    if t = "ghu_token".toList then .ok ("tid=abc;exp=100;sku=free".toList)
    else .error ("bad token".toList)
  configTokens := .ok []

/-- A resolution state in which every source fails. -/
def c1EmptyWorld : CredWorld where
  env := { copilotAPIKey := [], copilotOauthToken := [], oauthToken := [] }
  now := 50
  exchange := fun _ => .error ("unreachable".toList)
  configTokens := .error ("open apps.json: no such file or directory".toList)

/-- C1 (witness): on `c1ExchangeWorld` resolution takes path 2, returns the
exchanged credential and caches it; on `c1EmptyWorld` it returns the distinct
no-credential error. -/
theorem C1_resolution_priority_witness :
    getCopilotAPIKey c1ExchangeWorld =
      (.ok ("tid=abc;exp=100;sku=free".toList),
       { c1ExchangeWorld with env := { c1ExchangeWorld.env with
           copilotAPIKey := "tid=abc;exp=100;sku=free".toList } }) ∧
    getCopilotAPIKey c1EmptyWorld = (.error noCredentialMsg, c1EmptyWorld) := by
  constructor
  · exact (((C1_resolution_priority c1ExchangeWorld).2.1 (by decide)).1
      ("ghu_token".toList) ("tid=abc;exp=100;sku=free".toList)
      rfl (by decide) rfl).1
  · exact (((C1_resolution_priority c1EmptyWorld).2.1 (by decide)).2
      (by simp [oauthPathFails, getCopilotOAuthToken, c1EmptyWorld])).2
      ("open apps.json: no such file or directory".toList) rfl

/-- Claims of the internal JWT (`llm.TokenClaims`, src/internal/llm/token.go).
The `jti` the code derives from the issue timestamp (RFC3339Nano format,
injective in the timestamp) is modelled as the timestamp itself. -/
structure TokenClaims where
  expiresAt : Int
  issuedAt : Int
  jti : Int
  userID : Nat
  githubUserLogin : Str
deriving DecidableEq

/-- A presented bearer token: either a structurally well-formed JWS over some
claims, signed (HMAC-SHA256, modelled symbolically: the signature is
determined by and determines the signing secret and claims), or anything else
— malformed compact serialization, empty string, wrong claim shapes. -/
inductive JWT where
  | signed (claims : TokenClaims) (sigSecret : Str)
  | malformed (raw : Str)
deriving DecidableEq

/-- `llm.TokenLifetime`: 3600 seconds. -/
def tokenLifetime : Int := 3600

/-- Embedding of `llm.CreateLLMToken`: HS256 token whose claims carry the
user id, login, issue time, expiry `now + TokenLifetime` and timestamp id. -/
def createLLMToken (userID : Nat) (githubLogin : Str) (secret : Str) (now : Int) : JWT :=
  .signed { expiresAt := now + tokenLifetime, issuedAt := now, jti := now,
            userID := userID, githubUserLogin := githubLogin } secret

/-- Result of validation (`models.LLMToken` as populated by
`llm.ValidateLLMToken`; the constant debug default `AccountCreatedAt` is not
modelled). -/
structure LLMToken where
  iat : Int
  exp : Int
  jti : Int
  userID : Nat
  githubUserLogin : Str
  isStaff : Bool
  hasLLMSubscription : Bool
  maxMonthlySpendInCents : Nat
deriving DecidableEq

/-- The two error values of `llm.ValidateLLMToken`. -/
inductive TokenError where
  | expired
  | invalid
deriving DecidableEq

/-- Embedding of `llm.ValidateLLMToken`: `jwt.ParseWithClaims` (golang-jwt v4)
validates the registered claims (expired when `now ≥ exp`, zero leeway) and
the HMAC signature, accumulating both error flags; the wrapper then maps the
expired flag to `ErrTokenExpired` first and every other failure to
`ErrInvalidToken`. -/
def validateLLMToken (t : JWT) (secret : Str) (now : Int) : Except TokenError LLMToken :=
  match t with
  | .malformed _ => .error .invalid
  | .signed claims sigSecret =>
    if claims.expiresAt ≤ now then .error .expired
    else if sigSecret ≠ secret then .error .invalid
    else .ok { iat := claims.issuedAt, exp := claims.expiresAt, jti := claims.jti,
               userID := claims.userID, githubUserLogin := claims.githubUserLogin,
               isStaff := true, hasLLMSubscription := true,
               maxMonthlySpendInCents := 10000 }

/-- C3: validating a token issued with the same secret succeeds with the same
caller id and display name while unexpired; once the lifetime has elapsed it
returns the distinct expired error; a bad signature (unexpired), or any
malformed token, returns the generic invalid error. -/
theorem C3_token_roundtrip (id : Nat) (login secret : Str) (issueTime now : Int) :
    (now < issueTime + tokenLifetime →
      validateLLMToken (createLLMToken id login secret issueTime) secret now =
        .ok { iat := issueTime, exp := issueTime + tokenLifetime, jti := issueTime,
              userID := id, githubUserLogin := login, isStaff := true,
              hasLLMSubscription := true, maxMonthlySpendInCents := 10000 }) ∧
    (issueTime + tokenLifetime ≤ now →
      validateLLMToken (createLLMToken id login secret issueTime) secret now =
        .error .expired) ∧
    (∀ secret2 : Str, secret2 ≠ secret → now < issueTime + tokenLifetime →
      validateLLMToken (createLLMToken id login secret issueTime) secret2 now =
        .error .invalid) ∧
    (∀ raw : Str, validateLLMToken (.malformed raw) secret now = .error .invalid) := by
  refine ⟨?_, ?_, ?_, ?_⟩
  · intro h
    have hne : ¬(issueTime + tokenLifetime ≤ now) := by omega
    simp [createLLMToken, validateLLMToken, hne]
  · intro h
    simp [createLLMToken, validateLLMToken, h]
  · intro secret2 hs h
    have hne : ¬(issueTime + tokenLifetime ≤ now) := by omega
    have hs2 : secret ≠ secret2 := Ne.symm hs
    simp [createLLMToken, validateLLMToken, hne, hs2]
  · intro raw
    simp [validateLLMToken]

/-- C3 (witness): concrete round trip of a token for user 123 / "testuser",
validated one second before expiry, at expiry, with the wrong secret, and as
a malformed string. -/
theorem C3_token_roundtrip_witness :
    validateLLMToken (createLLMToken 123 ("testuser".toList) ("test-secret".toList) 0)
        ("test-secret".toList) 3599 =
      .ok { iat := 0, exp := 3600, jti := 0, userID := 123,
            githubUserLogin := "testuser".toList, isStaff := true,
            hasLLMSubscription := true, maxMonthlySpendInCents := 10000 } ∧
    validateLLMToken (createLLMToken 123 ("testuser".toList) ("test-secret".toList) 0)
        ("test-secret".toList) 3600 = .error .expired ∧
    validateLLMToken (createLLMToken 123 ("testuser".toList) ("test-secret".toList) 0)
        ("wrong-secret".toList) 3599 = .error .invalid ∧
    validateLLMToken (.malformed ("invalid.token.format".toList))
        ("test-secret".toList) 3599 = .error .invalid := by
  refine ⟨?_, ?_, ?_, ?_⟩
  · exact (C3_token_roundtrip 123 ("testuser".toList) ("test-secret".toList) 0 3599).1
      (by decide)
  · exact (C3_token_roundtrip 123 ("testuser".toList) ("test-secret".toList) 0 3600).2.1
      (by decide)
  · exact (C3_token_roundtrip 123 ("testuser".toList) ("test-secret".toList) 0 3599).2.2.1
      ("wrong-secret".toList) (by decide) (by decide)
  · exact (C3_token_roundtrip 123 ("testuser".toList) ("test-secret".toList) 0 3599).2.2.2
      ("invalid.token.format".toList)

/-- Language-model providers (`models.LanguageModelProvider`). -/
inductive Provider where
  | copilot
  | openai
  | anthropic
  | google
deriving DecidableEq

/-- Model descriptor (`models.LanguageModel`): id, name, provider, the five
rate ceilings and the enabled flag. -/
structure LanguageModel where
  id : Str
  name : Str
  provider : Provider
  maxRequestsPerMinute : Nat
  maxTokensPerMinute : Nat
  maxInputTokensPerMinute : Nat
  maxOutputTokensPerMinute : Nat
  maxTokensPerDay : Nat
  enabled : Bool
deriving DecidableEq

/-- The `copilot-chat` entry of `llm.DefaultModels`. -/
def copilotChatModel : LanguageModel :=
  { id := "copilot-chat".toList, name := "copilot-chat".toList, provider := .copilot,
    maxRequestsPerMinute := 25, maxTokensPerMinute := 5000,
    maxInputTokensPerMinute := 2500, maxOutputTokensPerMinute := 2500,
    maxTokensPerDay := 100000, enabled := true }

/-- Embedding of `llm.DefaultModels` (src/internal/llm/config.go). -/
def defaultModels : List LanguageModel :=
  [copilotChatModel,
   { id := "gpt-4".toList, name := "gpt-4".toList, provider := .openai,
     maxRequestsPerMinute := 20, maxTokensPerMinute := 4000,
     maxInputTokensPerMinute := 2000, maxOutputTokensPerMinute := 2000,
     maxTokensPerDay := 80000, enabled := true },
   { id := "claude-3-opus".toList, name := "claude-3-opus".toList, provider := .anthropic,
     maxRequestsPerMinute := 15, maxTokensPerMinute := 3000,
     maxInputTokensPerMinute := 1500, maxOutputTokensPerMinute := 1500,
     maxTokensPerDay := 60000, enabled := true }]

/-- Per-user usage snapshot (`models.ModelUsage`). -/
structure ModelUsage where
  userID : Nat
  model : Str
  requestsThisMinute : Nat
  tokensThisMinute : Nat
  inputTokensThisMinute : Nat
  outputTokensThisMinute : Nat
  tokensThisDay : Nat
deriving DecidableEq

/-- The error variants `llm.CheckRateLimit` can return: the unknown-model
error or the rate-limit error wrapping one of the five dimension messages. -/
inductive RateLimitError where
  | unknownModel (name : Str)
  | requestsPerMinute
  | tokensPerMinute
  | inputTokensPerMinute
  | outputTokensPerMinute
  | tokensPerDay
deriving DecidableEq

/-- Embedding of `llm.CheckRateLimit` (src/internal/llm/token.go): look the
model up by name in `DefaultModels`, then compare the five counters against
the ceilings in the fixed source order; `none` models a nil error. -/
def checkRateLimit (modelName : Str) (usage : ModelUsage) : Option RateLimitError :=
  match defaultModels.find? (fun m => m.name == modelName) with
  | none => some (.unknownModel modelName)
  | some m =>
    if usage.requestsThisMinute > m.maxRequestsPerMinute then some .requestsPerMinute
    else if usage.tokensThisMinute > m.maxTokensPerMinute then some .tokensPerMinute
    else if usage.inputTokensThisMinute > m.maxInputTokensPerMinute then
      some .inputTokensPerMinute
    else if usage.outputTokensThisMinute > m.maxOutputTokensPerMinute then
      some .outputTokensPerMinute
    else if usage.tokensThisDay > m.maxTokensPerDay then some .tokensPerDay
    else none

/-- C4: the rate check compares the five counters in the fixed order
requests/min, tokens/min, input-tokens/min, output-tokens/min, tokens/day;
the first exceeded ceiling determines the returned variant (so simultaneous
requests/min and tokens/min violations return the requests/min variant), and
an unknown model name yields the typed unknown-model error. -/
theorem C4_rate_limit_order (modelName : Str) (usage : ModelUsage) :
    (defaultModels.find? (fun m => m.name == modelName) = none →
      checkRateLimit modelName usage = some (.unknownModel modelName)) ∧
    (∀ m, defaultModels.find? (fun m => m.name == modelName) = some m →
      ((checkRateLimit modelName usage = some .requestsPerMinute ↔
          usage.requestsThisMinute > m.maxRequestsPerMinute) ∧
       (checkRateLimit modelName usage = some .tokensPerMinute ↔
          ¬ usage.requestsThisMinute > m.maxRequestsPerMinute ∧
          usage.tokensThisMinute > m.maxTokensPerMinute) ∧
       (checkRateLimit modelName usage = some .inputTokensPerMinute ↔
          ¬ usage.requestsThisMinute > m.maxRequestsPerMinute ∧
          ¬ usage.tokensThisMinute > m.maxTokensPerMinute ∧
          usage.inputTokensThisMinute > m.maxInputTokensPerMinute) ∧
       (checkRateLimit modelName usage = some .outputTokensPerMinute ↔
          ¬ usage.requestsThisMinute > m.maxRequestsPerMinute ∧
          ¬ usage.tokensThisMinute > m.maxTokensPerMinute ∧
          ¬ usage.inputTokensThisMinute > m.maxInputTokensPerMinute ∧
          usage.outputTokensThisMinute > m.maxOutputTokensPerMinute) ∧
       (checkRateLimit modelName usage = some .tokensPerDay ↔
          ¬ usage.requestsThisMinute > m.maxRequestsPerMinute ∧
          ¬ usage.tokensThisMinute > m.maxTokensPerMinute ∧
          ¬ usage.inputTokensThisMinute > m.maxInputTokensPerMinute ∧
          ¬ usage.outputTokensThisMinute > m.maxOutputTokensPerMinute ∧
          usage.tokensThisDay > m.maxTokensPerDay) ∧
       (checkRateLimit modelName usage = none ↔
          ¬ usage.requestsThisMinute > m.maxRequestsPerMinute ∧
          ¬ usage.tokensThisMinute > m.maxTokensPerMinute ∧
          ¬ usage.inputTokensThisMinute > m.maxInputTokensPerMinute ∧
          ¬ usage.outputTokensThisMinute > m.maxOutputTokensPerMinute ∧
          ¬ usage.tokensThisDay > m.maxTokensPerDay))) := by
  constructor
  · intro hf
    simp [checkRateLimit, hf]
  · intro m hf
    simp only [checkRateLimit, hf]
    refine ⟨?_, ?_, ?_, ?_, ?_, ?_⟩ <;> split_ifs <;> simp_all

/-- C4 (witness): with both requests/min (30 > 25) and tokens/min
(6000 > 5000) exceeded on `copilot-chat`, the requests-per-minute variant is
returned; an unknown model name returns the typed unknown-model error. -/
theorem C4_rate_limit_order_witness :
    checkRateLimit ("copilot-chat".toList)
      { userID := 1, model := "copilot-chat".toList, requestsThisMinute := 30,
        tokensThisMinute := 6000, inputTokensThisMinute := 0,
        outputTokensThisMinute := 0, tokensThisDay := 0 } =
      some .requestsPerMinute ∧
    checkRateLimit ("nonexistent-model".toList)
      { userID := 1, model := "nonexistent-model".toList, requestsThisMinute := 0,
        tokensThisMinute := 0, inputTokensThisMinute := 0,
        outputTokensThisMinute := 0, tokensThisDay := 0 } =
      some (.unknownModel ("nonexistent-model".toList)) := by
  constructor
  · exact ((C4_rate_limit_order ("copilot-chat".toList)
      { userID := 1, model := "copilot-chat".toList, requestsThisMinute := 30,
        tokensThisMinute := 6000, inputTokensThisMinute := 0,
        outputTokensThisMinute := 0, tokensThisDay := 0 }).2
      copilotChatModel (by decide)).1.mpr (by decide)
  · exact (C4_rate_limit_order ("nonexistent-model".toList)
      { userID := 1, model := "nonexistent-model".toList, requestsThisMinute := 0,
        tokensThisMinute := 0, inputTokensThisMinute := 0,
        outputTokensThisMinute := 0, tokensThisDay := 0 }).1 (by decide)

/-- Token usage of one request (`models.TokenUsage`). -/
structure TokenUsage where
  input : Nat
  output : Nat
deriving DecidableEq

/-- The `Service.userUsage` map (`map[uint64]models.ModelUsage`), keyed by
user id. -/
abbrev UsageMap := Nat → Option ModelUsage

/-- The empty usage map of a fresh `llm.NewService`. -/
def emptyUsageMap : UsageMap := fun _ => none

/-- Embedding of `Service.RecordUsage` (src/unnamed/part_007): on the first
call for a user, store a record with one request and `input+output` tokens
this minute; afterwards increment the request counter and add to the
per-minute token counter.  The map is keyed by user id alone. -/
def recordUsage (st : UsageMap) (userID : Nat) (model : Str) (u : TokenUsage) : UsageMap :=
  let entry : ModelUsage :=
    match st userID with
    | none =>
      { userID := userID, model := model, requestsThisMinute := 1,
        tokensThisMinute := u.input + u.output, inputTokensThisMinute := 0,
        outputTokensThisMinute := 0, tokensThisDay := 0 }
    | some e =>
      { e with requestsThisMinute := e.requestsThisMinute + 1,
               tokensThisMinute := e.tokensThisMinute + (u.input + u.output) }
  fun k => if k = userID then some entry else st k

/-- Embedding of `Service.GetModelUsage`: the stored record for the user (a
value copy), or a zero record carrying the requested user and model ids. -/
def getModelUsage (st : UsageMap) (userID : Nat) (model : Str) : ModelUsage :=
  match st userID with
  | none =>
    { userID := userID, model := model, requestsThisMinute := 0, tokensThisMinute := 0,
      inputTokensThisMinute := 0, outputTokensThisMinute := 0, tokensThisDay := 0 }
  | some e => e

/-- C10 (counterexample): after recording usage for caller 1 on model-a, the
snapshot for the distinct pair (1, model-b) shows the incremented request
counter (counters are not per (caller, model)), and the per-day token total
of (1, model-a) is still zero (Record never adds to the day total). -/
theorem C10_per_caller_counterexample :
    (getModelUsage (recordUsage emptyUsageMap 1 ("model-a".toList) ⟨10, 5⟩)
        1 ("model-b".toList)).requestsThisMinute = 1 ∧
    (getModelUsage (recordUsage emptyUsageMap 1 ("model-a".toList) ⟨10, 5⟩)
        1 ("model-a".toList)).tokensThisDay = 0 := by
  constructor <;> rfl

/-- C10 (amended): usage counters are kept per caller id alone (the model
argument does not key the record): Record increments the caller's request
count by one and adds `input+output` to the per-minute token total only — the
per-day and per-direction counters are never updated — as seen by the snapshot
for every model name of that caller; other callers are unchanged; Snapshot
returns a value copy, zero-valued (with the requested ids) when absent. -/
theorem C10_usage_amended (st : UsageMap) (uid uid2 : Nat) (model model2 : Str)
    (u : TokenUsage) :
    ((getModelUsage (recordUsage st uid model u) uid model2).requestsThisMinute =
      (getModelUsage st uid model2).requestsThisMinute + 1) ∧
    ((getModelUsage (recordUsage st uid model u) uid model2).tokensThisMinute =
      (getModelUsage st uid model2).tokensThisMinute + (u.input + u.output)) ∧
    ((getModelUsage (recordUsage st uid model u) uid model2).tokensThisDay =
      (getModelUsage st uid model2).tokensThisDay) ∧
    ((getModelUsage (recordUsage st uid model u) uid model2).inputTokensThisMinute =
      (getModelUsage st uid model2).inputTokensThisMinute) ∧
    ((getModelUsage (recordUsage st uid model u) uid model2).outputTokensThisMinute =
      (getModelUsage st uid model2).outputTokensThisMinute) ∧
    (uid2 ≠ uid →
      getModelUsage (recordUsage st uid model u) uid2 model2 =
        getModelUsage st uid2 model2) ∧
    (st uid = none → getModelUsage st uid model =
      { userID := uid, model := model, requestsThisMinute := 0, tokensThisMinute := 0,
        inputTokensThisMinute := 0, outputTokensThisMinute := 0, tokensThisDay := 0 }) := by
  refine ⟨?_, ?_, ?_, ?_, ?_, ?_, ?_⟩
  · cases h : st uid <;> simp [recordUsage, getModelUsage, h]
  · cases h : st uid <;> simp [recordUsage, getModelUsage, h]
  · cases h : st uid <;> simp [recordUsage, getModelUsage, h]
  · cases h : st uid <;> simp [recordUsage, getModelUsage, h]
  · cases h : st uid <;> simp [recordUsage, getModelUsage, h]
  · intro hne
    simp [recordUsage, getModelUsage, hne]
  · intro h
    simp [getModelUsage, h]

/-- C10 (witness): the amended record/snapshot behavior at a concrete state:
caller 7 records 10+5 tokens on model-a; the snapshot under model-b shows one
request, 15 minute-tokens and an untouched day total; caller 8 is unchanged
and has the zero snapshot. -/
theorem C10_usage_amended_witness :
    (getModelUsage (recordUsage emptyUsageMap 7 ("model-a".toList) ⟨10, 5⟩)
        7 ("model-b".toList)).requestsThisMinute =
      (getModelUsage emptyUsageMap 7 ("model-b".toList)).requestsThisMinute + 1 ∧
    getModelUsage (recordUsage emptyUsageMap 7 ("model-a".toList) ⟨10, 5⟩)
        8 ("model-b".toList) =
      getModelUsage emptyUsageMap 8 ("model-b".toList) ∧
    getModelUsage emptyUsageMap 7 ("model-a".toList) =
      { userID := 7, model := "model-a".toList, requestsThisMinute := 0,
        tokensThisMinute := 0, inputTokensThisMinute := 0,
        outputTokensThisMinute := 0, tokensThisDay := 0 } := by
  refine ⟨?_, ?_, ?_⟩
  · exact (C10_usage_amended emptyUsageMap 7 8 ("model-a".toList)
      ("model-b".toList) ⟨10, 5⟩).1
  · exact (C10_usage_amended emptyUsageMap 7 8 ("model-a".toList)
      ("model-b".toList) ⟨10, 5⟩).2.2.2.2.2.1 (by decide)
  · exact (C10_usage_amended emptyUsageMap 7 8 ("model-a".toList)
      ("model-b".toList) ⟨10, 5⟩).2.2.2.2.2.2 rfl

/-- First-pass predicate of `Service.PerformCompletion` model resolution:
exact id, exact name, or the requested name being a prefix of the id. -/
def modelMatchPass1 (req : Str) (m : LanguageModel) : Bool :=
  m.id == req || m.name == req || goStartsWith m.id req

/-- Embedding of the model-resolution part of `Service.PerformCompletion`
(src/unnamed/part_007): first loop takes the first catalog entry whose id or
name equals the requested name or whose id has it as a prefix; the fallback
loop takes the first entry whose id contains it; otherwise the unknown-model
error (`none`). -/
def resolveModelID (catalog : List LanguageModel) (req : Str) : Option Str :=
  match catalog.find? (modelMatchPass1 req) with
  | some m => some m.id
  | none =>
    match catalog.find? (fun m => goContains m.id req) with
    | some m => some m.id
    | none => none

/-- A catalog entry as produced by `Service.FetchModels` (provider copilot,
enabled, no rate ceilings). -/
def catalogEntry (id name : Str) : LanguageModel :=
  { id := id, name := name, provider := .copilot, maxRequestsPerMinute := 0,
    maxTokensPerMinute := 0, maxInputTokensPerMinute := 0,
    maxOutputTokensPerMinute := 0, maxTokensPerDay := 0, enabled := true }

/-- C8 (counterexample): the claim says the longest/most-specific prefix match
wins and an exact match always wins over prefix matches.  The code takes the
first catalog entry that matches: with catalog order [gpt-4o-mini, gpt-4o],
the request "gpt-4o" resolves to "gpt-4o-mini" by prefix although "gpt-4o" is
an exact id match; with catalog order [gpt-4o, gpt-4o-mini], the request
"gpt-4" resolves to the shorter "gpt-4o". -/
theorem C8_first_match_counterexample :
    resolveModelID [catalogEntry ("gpt-4o-mini".toList) ("GPT-4o mini".toList),
                    catalogEntry ("gpt-4o".toList) ("GPT-4o".toList)]
        ("gpt-4o".toList) = some ("gpt-4o-mini".toList) ∧
    resolveModelID [catalogEntry ("gpt-4o".toList) ("GPT-4o".toList),
                    catalogEntry ("gpt-4o-mini".toList) ("GPT-4o mini".toList)]
        ("gpt-4".toList) = some ("gpt-4o".toList) := by
  constructor <;> rfl

/-- C8 (amended): resolution scans the catalog in order — first pass accepts
exact id, exact name, or id-prefix matches, the first matching entry winning
regardless of specificity; a second pass accepts the first substring match;
otherwise the unknown-model error.  An exact id match guarantees resolution
in the first pass (substring-only entries cannot win then, though an earlier
prefix match can), and the specification example still resolves "gpt-4o-m" to
"gpt-4o-mini" in the catalog [gpt-4o, gpt-4o-mini]. -/
theorem C8_model_resolution_amended (catalog : List LanguageModel) (req : Str) :
    (∀ m, catalog.find? (modelMatchPass1 req) = some m →
      resolveModelID catalog req = some m.id) ∧
    (catalog.find? (modelMatchPass1 req) = none →
      ∀ m, catalog.find? (fun m => goContains m.id req) = some m →
        resolveModelID catalog req = some m.id) ∧
    (catalog.find? (modelMatchPass1 req) = none →
      catalog.find? (fun m => goContains m.id req) = none →
      resolveModelID catalog req = none) ∧
    (∀ m ∈ catalog, m.id = req →
      ∃ m2, catalog.find? (modelMatchPass1 req) = some m2 ∧
        resolveModelID catalog req = some m2.id) ∧
    resolveModelID [catalogEntry ("gpt-4o".toList) ("GPT-4o".toList),
                    catalogEntry ("gpt-4o-mini".toList) ("GPT-4o mini".toList)]
        ("gpt-4o-m".toList) = some ("gpt-4o-mini".toList) := by
  refine ⟨?_, ?_, ?_, ?_, ?_⟩
  · intro m hm
    simp [resolveModelID, hm]
  · intro h1 m hm
    simp [resolveModelID, h1, hm]
  · intro h1 h2
    simp [resolveModelID, h1, h2]
  · intro m hmem hid
    have hp : modelMatchPass1 req m = true := by
      simp [modelMatchPass1, hid]
    have hsome : (catalog.find? (modelMatchPass1 req)).isSome := by
      rw [List.find?_isSome]
      exact ⟨m, hmem, hp⟩
    rcases Option.isSome_iff_exists.mp hsome with ⟨m2, hm2⟩
    exact ⟨m2, hm2, by simp [resolveModelID, hm2]⟩
  · rfl

/-- C8 (witness): the amended first-pass rule at a concrete catalog — the
exact id "gpt-4o" resolves to itself when its entry is scanned first. -/
theorem C8_model_resolution_amended_witness :
    resolveModelID [catalogEntry ("gpt-4o".toList) ("GPT-4o".toList),
                    catalogEntry ("gpt-4o-mini".toList) ("GPT-4o mini".toList)]
        ("gpt-4o".toList) = some ("gpt-4o".toList) := by
  exact (C8_model_resolution_amended
      [catalogEntry ("gpt-4o".toList) ("GPT-4o".toList),
       catalogEntry ("gpt-4o-mini".toList) ("GPT-4o mini".toList)]
      ("gpt-4o".toList)).1
    (catalogEntry ("gpt-4o".toList) ("GPT-4o".toList)) rfl

/-- JSON values as decoded by Go `encoding/json` into `interface\x7b\x7d`
(numbers become float64; the payloads of interest carry only integral
numbers, modelled as `Int`). -/
inductive JVal where
  | null
  | bool (b : Bool)
  | num (n : Int)
  | str (s : Str)
  | arr (elems : List JVal)
  | obj (fields : List (Str × JVal))

instance : Inhabited JVal := ⟨JVal.null⟩

/-- A JSON object (Go `map[string]interface\x7b\x7d`), as an association
list. -/
abbrev JObj := List (Str × JVal)

/-- Lookup of a key in a JSON object. -/
def jGet (o : JObj) (k : Str) : Option JVal :=
  (o.find? (fun p => p.1 == k)).map (·.2)

/-- Update or insert of a key in a JSON object. -/
def jSet : JObj → Str → JVal → JObj
  | [], k, v => [(k, v)]
  | (k2, v2) :: t, k, v =>
    if k2 == k then (k2, v) :: t else (k2, v2) :: jSet t k v

/-- Deletion of a key from a JSON object (Go `delete(m, k)`). -/
def jDel (o : JObj) (k : Str) : JObj := o.filter (fun p => !(p.1 == k))

theorem jGet_jSet_same (o : JObj) (k : Str) (v : JVal) :
    jGet (jSet o k v) k = some v := by
  induction o with
  | nil => simp [jGet, jSet]
  | cons p t ih =>
    by_cases h : p.1 == k
    · cases p
      simp_all [jGet, jSet]
    · cases p
      simp_all [jGet, jSet]

theorem jGet_jSet_other (o : JObj) (k k2 : Str) (v : JVal) (h : k2 ≠ k) :
    jGet (jSet o k v) k2 = jGet o k2 := by
  induction o with
  | nil =>
    have hkk : (k == k2) = false := beq_eq_false_iff_ne.mpr (fun e => h e.symm)
    simp [jGet, jSet, List.find?, hkk]
  | cons p t ih =>
    cases p with
    | mk pk pv =>
      by_cases hk : pk == k
      · have hk2 : (pk == k2) = false := by
          have : pk = k := by simpa using hk
          subst this
          exact beq_eq_false_iff_ne.mpr (fun e => h (e.symm))
        simp [jGet, jSet, hk, hk2, List.find?]
      · by_cases hk2 : pk == k2
        · simp [jGet, jSet, hk, hk2, List.find?]
        · simp only [jGet, jSet, hk] at ih ⊢
          simp [List.find?, hk, hk2] at ih ⊢
          exact ih

theorem jGet_cons (pk : Str) (pv : JVal) (t : JObj) (k : Str) :
    jGet ((pk, pv) :: t) k = if pk == k then some pv else jGet t k := by
  by_cases h : pk == k
  · simp [jGet, List.find?_cons_of_pos, h]
  · simp [jGet, List.find?_cons_of_neg, h]

theorem jDel_cons (pk : Str) (pv : JVal) (t : JObj) (k : Str) :
    jDel ((pk, pv) :: t) k = if pk == k then jDel t k else (pk, pv) :: jDel t k := by
  by_cases h : pk == k <;> simp [jDel, List.filter_cons, h]

theorem jGet_jDel_same (o : JObj) (k : Str) : jGet (jDel o k) k = none := by
  induction o with
  | nil => simp [jGet, jDel]
  | cons p t ih =>
    cases p with
    | mk pk pv =>
      rw [jDel_cons]
      by_cases hk : pk == k
      · rw [if_pos hk]
        exact ih
      · rw [if_neg hk, jGet_cons, if_neg hk]
        exact ih

theorem jGet_jDel_other (o : JObj) (k k2 : Str) (h : k2 ≠ k) :
    jGet (jDel o k) k2 = jGet o k2 := by
  induction o with
  | nil => simp [jGet, jDel]
  | cons p t ih =>
    cases p with
    | mk pk pv =>
      rw [jDel_cons, jGet_cons]
      by_cases hk : pk == k
      · have hpk : pk = k := by simpa using hk
        have hk2 : (pk == k2) = false := by
          subst hpk
          exact beq_eq_false_iff_ne.mpr (fun e => h e.symm)
        rw [if_pos hk, if_neg (by simp [hk2]), ih]
      · rw [if_neg hk, jGet_cons]
        by_cases hk2 : pk == k2
        · rw [if_pos hk2, if_pos hk2]
        · rw [if_neg hk2, if_neg hk2, ih]

/-- Decode of the cleaned body into `llm.CompletionParams`
(`\x7bmodel string; provider_request string\x7d`): a missing field or JSON
null leaves the zero string, a field of any other non-string type is a decode
error (`none`), mirroring `encoding/json` struct decoding. -/
def strField : Option JVal → Option Str
  | none => some []
  | some (.str s) => some s
  | some .null => some []
  | some _ => none

/-- The provider payload a normalized request forwards upstream: the raw
`provider_request` string of the gateway envelope shape, or the re-marshalled
OpenAI-shaped object. -/
inductive ProviderPayload where
  | envelopeRaw (s : Str)
  | openaiObj (o : JObj)

/-- Result of the body-normalization part of `ServerState.HandleCompletion`. -/
structure NormalizedRequest where
  isStream : Bool
  model : Str
  providerRequest : ProviderPayload

/-- The OpenAI-shape branch of `ServerState.HandleCompletion`
(src/unnamed/part_004, second revision): default an absent or empty model to
"copilot-chat", inject `provider: "copilot"` when no provider marker is
present. -/
def normalizeOpenAIShape (isStream : Bool) (cleaned : JObj) : NormalizedRequest :=
  let model := match jGet cleaned ("model".toList) with
    | some (.str s) => s
    | _ => []
  let model := if model.isEmpty then "copilot-chat".toList else model
  let withProvider :=
    if (jGet cleaned ("provider".toList)).isSome then cleaned
    else jSet cleaned ("provider".toList) (.str ("copilot".toList))
  { isStream := isStream, model := model, providerRequest := .openaiObj withProvider }

/-- Embedding of the body processing of `ServerState.HandleCompletion`
(src/unnamed/part_004, second revision, lines 421-483): read the streaming
intent from the top-level boolean `stream` field (absent or non-boolean means
false), delete that field and re-marshal; then try the gateway envelope
shape, falling back to the OpenAI shape.  The input is the
`map[string]interface\x7b\x7d` decode of the body bytes (`none` when the body
is not a JSON object). -/
def normalizeCompletionBody (body : Option JObj) : Except Str NormalizedRequest :=
  match body with
  | none => .error ("invalid request body".toList)
  | some incoming =>
    let isStream := match jGet incoming ("stream".toList) with
      | some (.bool b) => b
      | _ => false
    let cleaned := jDel incoming ("stream".toList)
    match strField (jGet cleaned ("model".toList)),
          strField (jGet cleaned ("provider_request".toList)) with
    | some m, some p =>
      if p.isEmpty then .ok (normalizeOpenAIShape isStream cleaned)
      else .ok { isStream := isStream, model := m, providerRequest := .envelopeRaw p }
    | _, _ => .ok (normalizeOpenAIShape isStream cleaned)

/-- Embedding of the payload transformation of `Service.callCopilotAPI`
(src/unnamed/part_007, lines 176-218): unmarshal the provider request
(`none` models the unmarshal error), force `model` to the resolved model id,
default `temperature`, `top_p` and `max_tokens` when absent.  No `stream`
field is ever written. -/
def callCopilotAPIBody (requestData : Option JObj) (modelID : Str) : Except Str JObj :=
  match requestData with
  | none => .error ("invalid provider request".toList)
  | some o =>
    let o := jSet o ("model".toList) (.str modelID)
    let o := if (jGet o ("temperature".toList)).isSome then o
             else jSet o ("temperature".toList) (.num 0)
    let o := if (jGet o ("top_p".toList)).isSome then o
             else jSet o ("top_p".toList) (.num 1)
    let o := if (jGet o ("max_tokens".toList)).isSome then o
             else jSet o ("max_tokens".toList) (.num 4096)
    .ok o

/-- An OpenAI-shaped caller body requesting streaming. -/
def c5Body : JObj :=
  [("model".toList, .str ("gpt-4o".toList)),
   ("messages".toList, .arr [.obj [("role".toList, .str ("user".toList)),
                                   ("content".toList, .str ("hi".toList))]]),
   ("stream".toList, .bool true)]

/-- `c5Body` after the handler strips `stream` and injects the provider. -/
def c5CleanedBody : JObj :=
  [("model".toList, .str ("gpt-4o".toList)),
   ("messages".toList, .arr [.obj [("role".toList, .str ("user".toList)),
                                   ("content".toList, .str ("hi".toList))]]),
   ("provider".toList, .str ("copilot".toList))]

/-- The payload `Service.callCopilotAPI` sends upstream for `c5CleanedBody`. -/
def c5UpstreamBody : JObj :=
  [("model".toList, .str ("gpt-4o".toList)),
   ("messages".toList, .arr [.obj [("role".toList, .str ("user".toList)),
                                   ("content".toList, .str ("hi".toList))]]),
   ("provider".toList, .str ("copilot".toList)),
   ("temperature".toList, .num 0),
   ("top_p".toList, .num 1),
   ("max_tokens".toList, .num 4096)]

/-- C5: the streaming intent is read from the caller's top-level boolean
`stream` field and the field is stripped before forwarding — but, contrary to
the claim (and to the code's own comment "Always use streaming on the Copilot
API side"), no `stream: true` is ever re-inserted: the upstream payload built
by `callCopilotAPI` carries no `stream` key at all, so the vendor is not
called in streaming mode.  Model and provider defaulting behave as claimed,
and the remaining fields are forwarded unchanged. -/
theorem C5_stream_not_forwarded_bug :
    normalizeCompletionBody (some c5Body) =
      .ok { isStream := true, model := "gpt-4o".toList,
            providerRequest := .openaiObj c5CleanedBody } ∧
    callCopilotAPIBody (some c5CleanedBody) ("gpt-4o".toList) = .ok c5UpstreamBody ∧
    jGet c5UpstreamBody ("stream".toList) = none ∧
    jGet c5UpstreamBody ("messages".toList) = jGet c5Body ("messages".toList) := by
  refine ⟨rfl, rfl, rfl, rfl⟩

/-- Accumulated usage totals of the aggregated-mode loop. -/
structure UsageTotals where
  promptTokens : Int
  completionTokens : Int
  totalTokens : Int
deriving DecidableEq

/-- The zero-filled usage the handler starts from. -/
def zeroUsage : UsageTotals := ⟨0, 0, 0⟩

/-- `chunk["choices"].([]interface\x7b\x7d)` with the ok/non-empty check:
the first element of the `choices` array, when present. -/
def extractChoices0 (chunk : JVal) : Option JVal :=
  match chunk with
  | .obj o =>
    match jGet o ("choices".toList) with
    | some (.arr (c :: _)) => some c
    | _ => none
  | _ => none

/-- `choices[0].(map)["delta"].(map)["content"].(string)` with Go's
non-panicking type assertions: any shape mismatch yields no content. -/
def deltaContent (choice : JVal) : Option Str :=
  match choice with
  | .obj co =>
    match jGet co ("delta".toList) with
    | some (.obj d) =>
      match jGet d ("content".toList) with
      | some (.str s) => some s
      | _ => none
    | _ => none
  | _ => none

/-- The usage extraction of the aggregated-mode loop: when the chunk carries
a `usage` object, each numeric field present overwrites the running total. -/
def updateUsage (chunk : JVal) (u : UsageTotals) : UsageTotals :=
  match chunk with
  | .obj o =>
    match jGet o ("usage".toList) with
    | some (.obj uo) =>
      { promptTokens :=
          match jGet uo ("prompt_tokens".toList) with
          | some (.num n) => n
          | _ => u.promptTokens,
        completionTokens :=
          match jGet uo ("completion_tokens".toList) with
          | some (.num n) => n
          | _ => u.completionTokens,
        totalTokens :=
          match jGet uo ("total_tokens".toList) with
          | some (.num n) => n
          | _ => u.totalTokens }
    | _ => u
  | _ => u

/-- Per-chunk step of the aggregated-mode loop: an undecodable payload or one
without a non-empty `choices` array leaves the accumulator unchanged
(`continue`); otherwise the first choice's delta content is appended and the
usage totals updated. -/
def chunkStep : Option JVal → Str × UsageTotals → Str × UsageTotals
  | none, acc => acc
  | some chunk, acc =>
    match extractChoices0 chunk with
    | none => acc
    | some choice =>
      let acc1 := match deltaContent choice with
        | some s => (acc.1 ++ s, acc.2)
        | none => acc
      (acc1.1, updateUsage chunk acc1.2)

/-- Embedding of the aggregated-mode scanner loop of
`ServerState.HandleCompletion` (src/unnamed/part_004, second revision, lines
514-557): lines without the `data: ` head are skipped, `data: [DONE]` stops
the loop, and every other line's payload is decoded (`decode` models
`json.Unmarshal` of the external codec) and folded by `chunkStep`. -/
def aggregateSSE (decode : Str → Option JVal) :
    List Str → Str × UsageTotals → Str × UsageTotals
  | [], acc => acc
  | line :: rest, acc =>
    if goStartsWith line ("data: ".toList) then
      if line.drop 6 = "[DONE]".toList then acc
      else aggregateSSE decode rest (chunkStep (decode (line.drop 6)) acc)
    else aggregateSSE decode rest acc

theorem aggregateSSE_cons (decode : Str → Option JVal) (line : Str)
    (rest : List Str) (acc : Str × UsageTotals) :
    aggregateSSE decode (line :: rest) acc =
      if goStartsWith line ("data: ".toList) then
        if line.drop 6 = "[DONE]".toList then acc
        else aggregateSSE decode rest (chunkStep (decode (line.drop 6)) acc)
      else aggregateSSE decode rest acc := rfl

theorem chunkStep_usage (ov : Option JVal) (c : Str) (u : UsageTotals)
    (h : ∀ chunk, ov = some chunk → ∀ u2, updateUsage chunk u2 = u2) :
    (chunkStep ov (c, u)).2 = u := by
  cases ov with
  | none => rfl
  | some chunk =>
    have hupd := h chunk rfl
    simp only [chunkStep]
    cases hch : extractChoices0 chunk with
    | none => rfl
    | some choice =>
      cases hdc : deltaContent choice with
      | none => simp [hupd, hdc]
      | some s => simp [hupd, hdc]

theorem aggregateSSE_usage_const (decode : Str → Option JVal) (lines : List Str)
    (h : ∀ l ∈ lines, ∀ chunk, decode (l.drop 6) = some chunk →
      ∀ u, updateUsage chunk u = u) :
    ∀ (content : Str) (u : UsageTotals),
      (aggregateSSE decode lines (content, u)).2 = u := by
  induction lines with
  | nil => intro content u; rfl
  | cons line rest ih =>
    intro content u
    have hrest : ∀ l ∈ rest, ∀ chunk, decode (l.drop 6) = some chunk →
        ∀ u2, updateUsage chunk u2 = u2 :=
      fun l hl => h l (List.mem_cons_of_mem _ hl)
    rw [aggregateSSE_cons]
    by_cases hd : goStartsWith line ("data: ".toList) = true
    · rw [if_pos hd]
      by_cases hdone : line.drop 6 = "[DONE]".toList
      · rw [if_pos hdone]
      · rw [if_neg hdone]
        have hp2 : (chunkStep (decode (line.drop 6)) (content, u)).2 = u :=
          chunkStep_usage _ content u
            (fun chunk he => h line (List.mem_cons_self _ _) chunk he)
        have hp := (@Prod.mk.eta _ _ (chunkStep (decode (line.drop 6)) (content, u))).symm
        rw [hp2] at hp
        rw [hp]
        exact ih hrest _ u
    · rw [if_neg hd]
      exact ih hrest content u

/-- A delta chunk `\x7b"choices":[\x7b"delta":\x7b"content":<s>\x7d\x7d]\x7d`. -/
def mkDeltaChunk (s : Str) : JVal :=
  .obj [("choices".toList,
         .arr [.obj [("delta".toList, .obj [("content".toList, .str s)])]])]

/-- First SSE line of the synthetic Hello stream. -/
def helloLine1 : Str :=
  "data: \x7b\"choices\":[\x7b\"delta\":\x7b\"content\":\"Hel\"\x7d\x7d]\x7d".toList

/-- Second SSE line of the synthetic Hello stream. -/
def helloLine2 : Str :=
  "data: \x7b\"choices\":[\x7b\"delta\":\x7b\"content\":\"lo\"\x7d\x7d]\x7d".toList

/-- The JSON decode of the two synthetic chunk payloads. -/
def helloDecode (d : Str) : Option JVal :=
  if d = helloLine1.drop 6 then some (mkDeltaChunk ("Hel".toList))
  else if d = helloLine2.drop 6 then some (mkDeltaChunk ("lo".toList))
  else none

/-- The synthetic vendor stream: two content chunks, then the sentinel. -/
def helloLines : List Str := [helloLine1, helloLine2, "data: [DONE]".toList]

/-- `fmt.Sprintf("%06d", k)`: decimal digits zero-padded to width six. -/
def pad6 (k : Nat) : Str :=
  let s := (toString k).toList
  List.replicate (6 - s.length) '0' ++ s

/-- The generated completion id `fmt.Sprintf("chatcmpl-%d%06d", now, rnd)`. -/
def mkChatCmplID (now : Int) (rnd : Nat) : Str :=
  "chatcmpl-".toList ++ (toString now).toList ++ pad6 rnd

/-- Embedding of the aggregated-mode response object of
`ServerState.HandleCompletion` (lines 558-577): one `chat.completion` JSON
object with the accumulated content and usage. -/
def aggregatedResponse (decode : Str → Option JVal) (model : Str) (now : Int)
    (rnd : Nat) (lines : List Str) : JObj :=
  let res := aggregateSSE decode lines ([], zeroUsage)
  [("id".toList, .str (mkChatCmplID now rnd)),
   ("object".toList, .str ("chat.completion".toList)),
   ("created".toList, .num now),
   ("model".toList, .str model),
   ("choices".toList, .arr [.obj [
      ("message".toList, .obj [("role".toList, .str ("assistant".toList)),
                               ("content".toList, .str res.1)]),
      ("finish_reason".toList, .str ("stop".toList)),
      ("index".toList, .num 0)]]),
   ("usage".toList, .obj [
      ("prompt_tokens".toList, .num res.2.promptTokens),
      ("completion_tokens".toList, .num res.2.completionTokens),
      ("total_tokens".toList, .num res.2.totalTokens)])]

/-- `choices[0].message.content` of a response object. -/
def respMessageContent (o : JObj) : Option Str :=
  match jGet o ("choices".toList) with
  | some (.arr (.obj c :: _)) =>
    match jGet c ("message".toList) with
    | some (.obj msg) =>
      match jGet msg ("content".toList) with
      | some (.str s) => some s
      | _ => none
    | _ => none
  | _ => none

/-- `choices[0].message.role` of a response object. -/
def respMessageRole (o : JObj) : Option Str :=
  match jGet o ("choices".toList) with
  | some (.arr (.obj c :: _)) =>
    match jGet c ("message".toList) with
    | some (.obj msg) =>
      match jGet msg ("role".toList) with
      | some (.str s) => some s
      | _ => none
    | _ => none
  | _ => none

/-- `choices[0].finish_reason` of a response object. -/
def respFinishReason (o : JObj) : Option Str :=
  match jGet o ("choices".toList) with
  | some (.arr (.obj c :: _)) =>
    match jGet c ("finish_reason".toList) with
    | some (.str s) => some s
    | _ => none
  | _ => none

/-- C6: in aggregated mode the response is one `chat.completion` object whose
`choices[0].message.content` is the in-order concatenation of every chunk's
`choices[0].delta.content` — non-`data:` lines and undecodable chunks
contribute nothing, `data: [DONE]` stops accumulation — with the generated
id, `created` timestamp, echoed model, assistant role, `finish_reason`
"stop", and a usage object that stays zero-filled when no chunk carries
usage; the synthetic chunks "Hel", "lo", `[DONE]` yield content "Hello". -/
theorem C6_aggregated_mode (decode : Str → Option JVal) :
    (∀ (line : Str) (rest : List Str) (acc : Str × UsageTotals),
      goStartsWith line ("data: ".toList) = false →
      aggregateSSE decode (line :: rest) acc = aggregateSSE decode rest acc) ∧
    (∀ (rest : List Str) (acc : Str × UsageTotals),
      aggregateSSE decode (("data: [DONE]".toList) :: rest) acc = acc) ∧
    (∀ (line : Str) (rest : List Str) (acc : Str × UsageTotals),
      goStartsWith line ("data: ".toList) = true → line.drop 6 ≠ "[DONE]".toList →
      decode (line.drop 6) = none →
      aggregateSSE decode (line :: rest) acc = aggregateSSE decode rest acc) ∧
    (∀ (line : Str) (rest : List Str) (content : Str) (u : UsageTotals)
        (chunk choice : JVal) (s : Str),
      goStartsWith line ("data: ".toList) = true → line.drop 6 ≠ "[DONE]".toList →
      decode (line.drop 6) = some chunk → extractChoices0 chunk = some choice →
      deltaContent choice = some s →
      aggregateSSE decode (line :: rest) (content, u) =
        aggregateSSE decode rest (content ++ s, updateUsage chunk u)) ∧
    (∀ (model : Str) (now : Int) (rnd : Nat) (lines : List Str),
      jGet (aggregatedResponse decode model now rnd lines) ("object".toList) =
        some (.str ("chat.completion".toList)) ∧
      jGet (aggregatedResponse decode model now rnd lines) ("created".toList) =
        some (.num now) ∧
      jGet (aggregatedResponse decode model now rnd lines) ("model".toList) =
        some (.str model) ∧
      jGet (aggregatedResponse decode model now rnd lines) ("id".toList) =
        some (.str (mkChatCmplID now rnd)) ∧
      respMessageContent (aggregatedResponse decode model now rnd lines) =
        some (aggregateSSE decode lines ([], zeroUsage)).1 ∧
      respMessageRole (aggregatedResponse decode model now rnd lines) =
        some ("assistant".toList) ∧
      respFinishReason (aggregatedResponse decode model now rnd lines) =
        some ("stop".toList)) ∧
    (∀ (model : Str) (now : Int) (rnd : Nat) (lines : List Str),
      (∀ l ∈ lines, ∀ chunk, decode (l.drop 6) = some chunk →
        ∀ u, updateUsage chunk u = u) →
      jGet (aggregatedResponse decode model now rnd lines) ("usage".toList) =
        some (.obj [("prompt_tokens".toList, .num 0),
                    ("completion_tokens".toList, .num 0),
                    ("total_tokens".toList, .num 0)])) ∧
    respMessageContent
        (aggregatedResponse helloDecode ("gpt-4o".toList) 1700000000 42 helloLines) =
      some ("Hello".toList) := by
  refine ⟨?_, ?_, ?_, ?_, ?_, ?_, ?_⟩
  · intro line rest acc h
    have hn : ¬(goStartsWith line ("data: ".toList) = true) := fun hc => by
      rw [h] at hc
      exact Bool.false_ne_true hc
    rw [aggregateSSE_cons, if_neg hn]
  · intro rest acc
    rfl
  · intro line rest acc hd hdone hdec
    rw [aggregateSSE_cons, if_pos hd, if_neg hdone, hdec]
    rfl
  · intro line rest content u chunk choice s hd hdone hdec hch hdc
    rw [aggregateSSE_cons, if_pos hd, if_neg hdone, hdec]
    have hstep : chunkStep (some chunk) (content, u) =
        (content ++ s, updateUsage chunk u) := by
      simp [chunkStep, hch, hdc]
    rw [hstep]
  · intro model now rnd lines
    exact ⟨rfl, rfl, rfl, rfl, rfl, rfl, rfl⟩
  · intro model now rnd lines h
    have hz : (aggregateSSE decode lines ([], zeroUsage)).2 = zeroUsage :=
      aggregateSSE_usage_const decode lines h [] zeroUsage
    simp only [aggregatedResponse, hz]
    rfl
  · rfl

/-- C6 (witness): the accumulation step applied to the first Hello chunk, and
the zero-filled usage object of the Hello stream, which carries no usage. -/
theorem C6_aggregated_mode_witness :
    aggregateSSE helloDecode helloLines ([], zeroUsage) =
      aggregateSSE helloDecode [helloLine2, "data: [DONE]".toList]
        ("Hel".toList, updateUsage (mkDeltaChunk ("Hel".toList)) zeroUsage) ∧
    jGet (aggregatedResponse helloDecode ("gpt-4o".toList) 1700000000 42 helloLines)
        ("usage".toList) =
      some (.obj [("prompt_tokens".toList, .num 0),
                  ("completion_tokens".toList, .num 0),
                  ("total_tokens".toList, .num 0)]) := by
  constructor
  · exact (C6_aggregated_mode helloDecode).2.2.2.1 helloLine1
      [helloLine2, "data: [DONE]".toList] [] zeroUsage
      (mkDeltaChunk ("Hel".toList))
      (.obj [("delta".toList, .obj [("content".toList, .str ("Hel".toList))])])
      ("Hel".toList) rfl (by decide) rfl rfl rfl
  · refine (C6_aggregated_mode helloDecode).2.2.2.2.2.1 ("gpt-4o".toList)
      1700000000 42 helloLines ?_
    intro l hl chunk hc u
    rcases List.mem_cons.mp hl with h1 | hl2
    · subst h1
      rw [show helloDecode (helloLine1.drop 6) =
          some (mkDeltaChunk ("Hel".toList)) from rfl] at hc
      injection hc with h
      subst h
      rfl
    · rcases List.mem_cons.mp hl2 with h2 | hl3
      · subst h2
        rw [show helloDecode (helloLine2.drop 6) =
            some (mkDeltaChunk ("lo".toList)) from rfl] at hc
        injection hc with h
        subst h
        rfl
      · rcases List.mem_cons.mp hl3 with h3 | hl4
        · subst h3
          rw [show helloDecode (("data: [DONE]".toList).drop 6) = none from rfl] at hc
          exact Option.noConfusion hc
        · cases hl4

/-- Events the passthrough loop emits on the client connection. -/
inductive OutEvent where
  | write (chunk : Str)
  | flush
deriving DecidableEq

/-- The line decomposition `bufio.Reader.ReadBytes('\n')` produces over a
byte stream: segments each ending in the newline, with a possibly
newline-free final segment. -/
def splitLines : Str → List Str
  | [] => []
  | c :: t =>
    match splitLines t with
    | [] => [[c]]
    | h :: r => if c = '\n' then [c] :: h :: r else (c :: h) :: r

/-- Embedding of the passthrough streaming loop of
`ServerState.HandleCompletion` (src/unnamed/part_004, second revision, lines
585-595): read one line at a time with `ReadBytes('\n')` — which yields
exactly the `splitLines` segments in order — write every non-empty segment
verbatim, flush after each write, stop at the read error (EOF). -/
def passthroughEvents (s : Str) : List OutEvent :=
  (splitLines s).flatMap (fun l => [.write l, .flush])

/-- The chunks written, in order. -/
def writtenLines (evs : List OutEvent) : List Str :=
  evs.filterMap (fun e => match e with | .write l => some l | .flush => none)

/-- The response headers set on the passthrough path (lines 581-583). -/
def sseHeaders : List (Str × Str) :=
  [("Content-Type".toList, "text/event-stream".toList),
   ("Cache-Control".toList, "no-cache".toList),
   ("Connection".toList, "keep-alive".toList)]

theorem splitLines_cons_nil (c : Char) (t : Str) (h : splitLines t = []) :
    splitLines (c :: t) = [[c]] := by
  rw [splitLines, h]

theorem splitLines_cons_cons (c : Char) (t : Str) (a : Str) (r : List Str)
    (h : splitLines t = a :: r) :
    splitLines (c :: t) = if c = '\n' then [c] :: a :: r else (c :: a) :: r := by
  rw [splitLines, h]

theorem splitLines_nil_iff (s : Str) : splitLines s = [] ↔ s = [] := by
  constructor
  · intro h
    cases s with
    | nil => rfl
    | cons c t =>
      rcases hh : splitLines t with _ | ⟨a, r⟩
      · rw [splitLines_cons_nil c t hh] at h
        cases h
      · rw [splitLines_cons_cons c t a r hh] at h
        by_cases hc : c = '\n'
        · rw [if_pos hc] at h
          cases h
        · rw [if_neg hc] at h
          cases h
  · intro h
    subst h
    rfl

theorem splitLines_join (s : Str) : (splitLines s).flatten = s := by
  induction s with
  | nil => rfl
  | cons c t ih =>
    rcases hh : splitLines t with _ | ⟨a, r⟩
    · have ht : t = [] := (splitLines_nil_iff t).mp hh
      subst ht
      rfl
    · rw [hh] at ih
      rw [splitLines_cons_cons c t a r hh]
      by_cases hc : c = '\n'
      · rw [if_pos hc, hc]
        simpa using ih
      · rw [if_neg hc]
        simpa using ih

theorem writtenLines_bindPair (L : List Str) :
    writtenLines (L.flatMap (fun l => [.write l, .flush])) = L := by
  induction L with
  | nil => rfl
  | cons a L ih =>
    simp only [List.flatMap_cons, writtenLines, List.filterMap_append,
      List.filterMap_cons] at ih ⊢
    simpa using ih

theorem bindPair_flush_after_write (L : List Str) :
    ∀ (pre post : List OutEvent) (l : Str),
      L.flatMap (fun l => [OutEvent.write l, OutEvent.flush]) =
        pre ++ OutEvent.write l :: post →
      ∃ post2, post = OutEvent.flush :: post2 := by
  induction L with
  | nil =>
    intro pre post l h
    rw [List.flatMap_nil] at h
    exact absurd h.symm (List.append_ne_nil_of_right_ne_nil pre (by simp))
  | cons a L ih =>
    intro pre post l h
    rw [List.flatMap_cons] at h
    cases pre with
    | nil =>
      simp only [List.nil_append, List.cons_append] at h
      injection h with h1 h2
      exact ⟨L.flatMap (fun l => [OutEvent.write l, OutEvent.flush]), h2.symm⟩
    | cons e pre2 =>
      simp only [List.cons_append] at h
      injection h with h1 h2
      cases pre2 with
      | nil =>
        simp only [List.nil_append] at h2
        injection h2 with h3 h4
        cases h3
      | cons e2 pre3 =>
        simp only [List.cons_append] at h2
        injection h2 with h3 h4
        exact ih pre3 post l h4

/-- The synthetic vendor stream of three `data:` lines (with SSE blank-line
separators) ending in the sentinel line. -/
def c7Stream : Str :=
  "data: a\n\ndata: b\n\ndata: c\n\ndata: [DONE]\n".toList

/-- C7: the passthrough loop re-emits every raw line of the vendor stream
verbatim and in order — the written chunks are exactly the `ReadBytes('\n')`
segments and concatenate back to the input byte stream — with a flush after
each write; the response carries the SSE content type with
no-cache/keep-alive directives; the synthetic three-chunk stream yields
exactly its own lines, ending in `data: [DONE]`. -/
theorem C7_passthrough_stream (s : Str) :
    writtenLines (passthroughEvents s) = splitLines s ∧
    (writtenLines (passthroughEvents s)).flatten = s ∧
    (∀ (pre post : List OutEvent) (l : Str),
      passthroughEvents s = pre ++ OutEvent.write l :: post →
      ∃ post2, post = OutEvent.flush :: post2) ∧
    sseHeaders = [("Content-Type".toList, "text/event-stream".toList),
                  ("Cache-Control".toList, "no-cache".toList),
                  ("Connection".toList, "keep-alive".toList)] ∧
    passthroughEvents c7Stream =
      [.write ("data: a\n".toList), .flush,
       .write ("\n".toList), .flush,
       .write ("data: b\n".toList), .flush,
       .write ("\n".toList), .flush,
       .write ("data: c\n".toList), .flush,
       .write ("\n".toList), .flush,
       .write ("data: [DONE]\n".toList), .flush] := by
  refine ⟨?_, ?_, ?_, rfl, ?_⟩
  · exact writtenLines_bindPair (splitLines s)
  · rw [passthroughEvents, writtenLines_bindPair (splitLines s)]
    exact splitLines_join s
  · exact bindPair_flush_after_write (splitLines s)
  · decide

/-- C7 (witness): the flush-after-write conjunct applied at the head of the
synthetic stream's event list. -/
theorem C7_passthrough_stream_witness :
    ∃ post2,
      ([.flush, .write ("\n".toList), .flush,
        .write ("data: b\n".toList), .flush,
        .write ("\n".toList), .flush,
        .write ("data: c\n".toList), .flush,
        .write ("\n".toList), .flush,
        .write ("data: [DONE]\n".toList), .flush] : List OutEvent) =
        OutEvent.flush :: post2 := by
  exact (C7_passthrough_stream c7Stream).2.2.1 [] _ ("data: a\n".toList) (by decide)

/-- The error values `Service.PerformCompletion` can return: a failed model
fetch, the rate-check error of `ValidateAccess` (which is exactly
`CheckRateLimit`), a missing Copilot key or an unusable provider request in
`callCopilotAPI`. -/
inductive PerformError where
  | fetchModelsFailed
  | accessDenied (e : RateLimitError)
  | copilotKeyMissing
  | badProviderRequest
deriving DecidableEq

/-- `errors.Is(err, ErrRateLimitExceeded)`: true exactly for the five
rate-dimension errors, which `CheckRateLimit` wraps around
`ErrRateLimitExceeded`; the unknown-model error and the others do not wrap
it. -/
def isRateLimitError : PerformError → Bool
  | .accessDenied (.unknownModel _) => false
  | .accessDenied _ => true
  | _ => false

/-- Embedding of `llm.SetErrorResponseHeaders` (src/internal/llm/token.go,
lines 199-203): set `Retry-After: 60` exactly on rate-limit errors. -/
def setErrorResponseHeaders (err : PerformError) : List (Str × Str) :=
  if isRateLimitError err then [("Retry-After".toList, "60".toList)] else []

/-- An HTTP error response of the completion handler: status, the headers it
sets beyond the JSON content type, and the `type` field of the OpenAI error
envelope. -/
structure ErrorResponse where
  status : Nat
  headers : List (Str × Str)
  errType : Str
deriving DecidableEq

/-- The handler's response to a `PerformCompletion` error
(src/unnamed/part_004, second revision, lines 500-504): always
`writeOpenAIError(w, http.StatusBadRequest, err.Error(),
"invalid_request_error")`; `SetErrorResponseHeaders` is not invoked on this
path. -/
def completionPerformErrorResponse (_ : PerformError) : ErrorResponse :=
  { status := 400, headers := [], errType := "invalid_request_error".toList }

/-- The handler's response to a token-validation error (lines 410-419). -/
def tokenErrorResponse : TokenError → ErrorResponse
  | .expired =>
    { status := 401, headers := [("X-LLM-Token-Expired".toList, "true".toList)],
      errType := "invalid_request_error".toList }
  | .invalid =>
    { status := 401, headers := [], errType := "invalid_request_error".toList }

/-- The handler's response to an unparseable request body (line 457). -/
def invalidBodyResponse : ErrorResponse :=
  { status := 400, headers := [], errType := "invalid_request_error".toList }

/-- The completion handler's error response when the rate-limit check fails
for the given model and usage: `ValidateAccess` returns the `CheckRateLimit`
error, `PerformCompletion` propagates it, and the handler maps it (`none`
when the check passes). -/
def completionRateLimitResponse (modelName : Str) (usage : ModelUsage) :
    Option ErrorResponse :=
  match checkRateLimit modelName usage with
  | some e => some (completionPerformErrorResponse (.accessDenied e))
  | none => none

/-- C9 (counterexample): a completion request for `copilot-chat` with 30
requests this minute fails the rate-limit check, yet the HTTP response has
status 400 — not 429 — and carries no `Retry-After` header. -/
theorem C9_rate_limit_status_counterexample :
    completionRateLimitResponse ("copilot-chat".toList)
      { userID := 1, model := "copilot-chat".toList, requestsThisMinute := 30,
        tokensThisMinute := 0, inputTokensThisMinute := 0,
        outputTokensThisMinute := 0, tokensThisDay := 0 } =
      some { status := 400, headers := [],
             errType := "invalid_request_error".toList } := by
  rfl

/-- C9 (amended): on the completion path every `PerformCompletion` failure —
rate-limit failures included — is answered with status 400 and no extra
headers (the handler never calls `SetErrorResponseHeaders`, which would add
`Retry-After: 60` exactly for rate-limit errors); token failures map to 401
(the expired case also setting `X-LLM-Token-Expired: true`) and malformed
bodies to 400. -/
theorem C9_error_mapping_amended :
    (∀ (modelName : Str) (usage : ModelUsage) (r : ErrorResponse),
      completionRateLimitResponse modelName usage = some r →
      r.status = 400 ∧ r.headers = []) ∧
    (∀ e : PerformError, isRateLimitError e = true →
      setErrorResponseHeaders e = [("Retry-After".toList, "60".toList)]) ∧
    (∀ e : PerformError, isRateLimitError e = false →
      setErrorResponseHeaders e = []) ∧
    (tokenErrorResponse .expired).status = 401 ∧
    (tokenErrorResponse .expired).headers =
      [("X-LLM-Token-Expired".toList, "true".toList)] ∧
    (tokenErrorResponse .invalid).status = 401 ∧
    invalidBodyResponse.status = 400 := by
  refine ⟨?_, ?_, ?_, rfl, rfl, rfl, rfl⟩
  · intro modelName usage r h
    rw [completionRateLimitResponse] at h
    cases hc : checkRateLimit modelName usage with
    | none =>
      rw [hc] at h
      cases h
    | some e =>
      rw [hc] at h
      injection h with h2
      subst h2
      exact ⟨rfl, rfl⟩
  · intro e h
    simp [setErrorResponseHeaders, h]
  · intro e h
    simp [setErrorResponseHeaders, h]

/-- C9 (witness): the amended mapping at the concrete over-limit request and
at the concrete rate-limit error value. -/
theorem C9_error_mapping_amended_witness :
    ({ status := 400, headers := [],
       errType := "invalid_request_error".toList } : ErrorResponse).status = 400 ∧
    setErrorResponseHeaders (.accessDenied .requestsPerMinute) =
      [("Retry-After".toList, "60".toList)] ∧
    setErrorResponseHeaders (.accessDenied (.unknownModel ("m".toList))) = [] := by
  refine ⟨?_, ?_, ?_⟩
  · exact (C9_error_mapping_amended.1 ("copilot-chat".toList)
      { userID := 1, model := "copilot-chat".toList, requestsThisMinute := 30,
        tokensThisMinute := 0, inputTokensThisMinute := 0,
        outputTokensThisMinute := 0, tokensThisDay := 0 }
      { status := 400, headers := [], errType := "invalid_request_error".toList }
      (by rfl)).1
  · exact C9_error_mapping_amended.2.1 (.accessDenied .requestsPerMinute) rfl
  · exact C9_error_mapping_amended.2.2.1 (.accessDenied (.unknownModel ("m".toList))) rfl
